import Mathlib

/-!
# rpm-ostree `pkg-add` / `pkg-remove` builtins

A shallow embedding of `src/app/rpmostree-pkg-builtins.c`.

The file is a thin client: it parses options, resolves the package tokens,
hands the request to the daemon and reports the outcome.  Everything it
talks to (option parser, file system, daemon proxies, diff printer) lives
outside the file, so the embedding takes those collaborators as a record of
answer functions `Collab` and records every call the code makes, with the
answer it got, in a trace of `Event`s.  The control flow, the order of the
calls, the strings printed and the exit statuses are those of the C source.
-/

namespace RpmOstree

/-! ## Library constants and string helpers -/

/-- The C library's `EXIT_SUCCESS`. -/
def EXIT_SUCCESS : Int := 0

/-- The C library's `EXIT_FAILURE`. -/
def EXIT_FAILURE : Int := 1

/-- GLib's `g_str_has_suffix (str, suffix)`: `str` ends with `suffix`. -/
def g_str_has_suffix (str suffix : String) : Bool :=
  suffix.data.isSuffixOf str.data

/-- GLib's `g_str_has_prefix (str, start)`: `str` begins with `start`. -/
def g_str_has_prefix (str start : String) : Bool :=
  start.data.isPrefixOf str.data

/-- libglnx's `glnx_set_prefix_error_from_errno (error, format, ...)`: the
error is set from `errno` (message `g_strerror (errno)`, here `strerror`) and
then prefixed with the formatted text (here `formatted`). -/
def glnx_set_prefix_error_from_errno (formatted strerror : String) : String :=
  formatted ++ strerror

/-- Text printed on the dry-run branch of `pkg_change` (line 89). -/
def dry_run_notice : String := "Exiting because of '--dry-run' option\n"

/-- Text printed after the diff in `pkg_change` (line 103). -/
def reboot_instruction : String := "Run \"systemctl reboot\" to start a reboot\n"

/-- Message handed to `rpmostree_usage_error` (lines 140 and 205). -/
def usage_message : String := "At least one PACKAGE must be specified"

/-! ## Options, collaborators, events -/

/-- The three file-level statics `opt_osname`, `opt_reboot`, `opt_dry_run`
(lines 30-32) as left by the option parser. -/
structure Opts where
  opt_osname : Option String
  opt_reboot : Bool
  opt_dry_run : Bool
  deriving DecidableEq, Repr

/-- Answers of the functions the file calls but does not define.  A failing
call carries the text of the error it sets (for `access` and `realpath`: the
`g_strerror (errno)` text).

`access` and `realpath` are asked once per loop iteration and the file system
may change in between, so their answer may depend on the iteration `i` (the
value of the C loop variable) that makes the call.  Every other collaborator
is called at most once per invocation. -/
structure Collab where
  /-- `rpmostree_option_context_parse`: fills the option statics, strips the
  options from `argv` (element 0 stays) and acquires `sysroot_proxy`. -/
  option_context_parse : List String → Except String (Opts × List String)
  /-- Error text set by `rpmostree_usage_error` for a given message. -/
  usage_error : String → String
  /-- `access (pkgspec, R_OK)` in iteration `i`: `ok` when it returns 0. -/
  access : Nat → String → Except String Unit
  /-- `realpath (pkgspec, NULL)` in iteration `i`: `ok p` for a non-NULL `p`. -/
  realpath : Nat → String → Except String String
  /-- `rpmostree_load_os_proxy (sysroot_proxy, opt_osname, ...)`. -/
  load_os_proxy : Option String → Except String Unit
  /-- `rpmostree_os_call_pkg_change_sync` given the `reboot` and `dry-run`
  entries of the options variant and the two package lists; `ok` carries the
  transaction address. -/
  os_call_pkg_change_sync : Bool → Bool → List String → List String → Except String String
  /-- `rpmostree_transaction_get_response_sync` on a transaction address. -/
  transaction_get_response_sync : String → Except String Unit
  /-- `rpmostree_sysroot_get_path (sysroot_proxy)`. -/
  sysroot_get_path : String
  /-- `rpmostree_print_treepkg_diff_from_sysroot_path` on a sysroot path. -/
  print_treepkg_diff_from_sysroot_path : String → Except String Unit

/-- One call made by the code, with its arguments and its answer. -/
inductive Event where
  | option_context_parse (argv : List String) (ok : Bool)
  | usage_error (message : String)
  | access (pkgspec : String) (ok : Bool)
  | realpath (pkgspec : String) (abspath : Option String)
  | load_os_proxy (osname : Option String) (ok : Bool)
  | os_call_pkg_change_sync (reboot dry_run : Bool)
      (packages_to_add packages_to_remove : List String) (ok : Bool)
  | transaction_get_response_sync (transaction_address : String) (ok : Bool)
  | sysroot_get_path
  | print_treepkg_diff_from_sysroot_path (sysroot_path : String) (ok : Bool)
  | g_print (text : String)
  | cleanup_peer
  deriving DecidableEq, Repr

/-- What a builtin leaves behind: the returned status, the `GError` message
if one was set, and the calls made, oldest first. -/
structure Result where
  exit_status : Int
  error : Option String
  trace : List Event
  deriving DecidableEq, Repr

/-! ## `get_args_variant` and `pkg_change` (lines 41-113) -/

/-- `get_args_variant` (lines 41-49): the dictionary with the entries
`reboot` and `dry-run`, as the pair of their values. -/
def get_args_variant (o : Opts) : Bool × Bool :=
  (o.opt_reboot, o.opt_dry_run)

/-- The `out:` label of `pkg_change` (lines 108-112): `rpmostree_cleanup_peer`
is called and `exit_status` returned. -/
def pkg_change_out (exit_status : Int) (error : Option String) (trace : List Event) : Result :=
  { exit_status := exit_status, error := error, trace := trace ++ [Event.cleanup_peer] }

/-- `pkg_change` (lines 51-113).  A `none` list is the C `NULL`. -/
def pkg_change (C : Collab) (o : Opts)
    (packages_to_add packages_to_remove : Option (List String)) : Result :=
  let packages_to_add := packages_to_add.getD []
  let packages_to_remove := packages_to_remove.getD []
  match C.load_os_proxy o.opt_osname with
  | .error e =>
    pkg_change_out EXIT_FAILURE (some e) [Event.load_os_proxy o.opt_osname false]
  | .ok _ =>
    let t1 := [Event.load_os_proxy o.opt_osname true]
    let args := get_args_variant o
    match C.os_call_pkg_change_sync args.1 args.2 packages_to_add packages_to_remove with
    | .error e =>
      pkg_change_out EXIT_FAILURE (some e)
        (t1 ++ [Event.os_call_pkg_change_sync args.1 args.2 packages_to_add packages_to_remove false])
    | .ok transaction_address =>
      let t2 := t1 ++
        [Event.os_call_pkg_change_sync args.1 args.2 packages_to_add packages_to_remove true]
      match C.transaction_get_response_sync transaction_address with
      | .error e =>
        pkg_change_out EXIT_FAILURE (some e)
          (t2 ++ [Event.transaction_get_response_sync transaction_address false])
      | .ok _ =>
        let t3 := t2 ++ [Event.transaction_get_response_sync transaction_address true]
        if o.opt_dry_run then
          pkg_change_out EXIT_SUCCESS none (t3 ++ [Event.g_print dry_run_notice])
        else if !o.opt_reboot then
          let sysroot_path := C.sysroot_get_path
          let t4 := t3 ++ [Event.sysroot_get_path]
          match C.print_treepkg_diff_from_sysroot_path sysroot_path with
          | .error e =>
            pkg_change_out EXIT_FAILURE (some e)
              (t4 ++ [Event.print_treepkg_diff_from_sysroot_path sysroot_path false])
          | .ok _ =>
            pkg_change_out EXIT_SUCCESS none
              (t4 ++ [Event.print_treepkg_diff_from_sysroot_path sysroot_path true,
                      Event.g_print reboot_instruction])
        else
          pkg_change_out EXIT_SUCCESS none t3

/-! ## `rpmostree_builtin_pkg_add` (lines 115-179) -/

/-- Outcome of the token loop: the calls it made and either the error message
it set before `return EXIT_FAILURE` or the filled `packages_to_add` array. -/
structure Resolved where
  trace : List Event
  result : Except String (List String)

/-- The loop of lines 144-175, started at loop variable `i` on the tokens
`argv[i], ..., argv[argc-1]` with the array `packages_to_add` filled so far. -/
def pkg_add_loop (C : Collab) : Nat → List String → List String → Resolved
  | _, [], packages_to_add => { trace := [], result := .ok packages_to_add }
  | i, pkgspec :: rest, packages_to_add =>
    if !(g_str_has_suffix pkgspec ".rpm") || ( g_str_has_prefix pkgspec "/") then
      pkg_add_loop C (i + 1) rest (packages_to_add ++ [pkgspec])
    else
      match C.access i pkgspec with
      | .error strerror =>
        { trace := [Event.access pkgspec false],
          result := .error (glnx_set_prefix_error_from_errno
            ("can't read package '" ++ pkgspec ++ "': ") strerror) }
      | .ok _ =>
        match C.realpath i pkgspec with
        | .error strerror =>
          { trace := [Event.access pkgspec true, Event.realpath pkgspec none],
            result := .error (glnx_set_prefix_error_from_errno "realpath" strerror) }
        | .ok abspath =>
          let r := pkg_add_loop C (i + 1) rest (packages_to_add ++ [abspath])
          { trace := Event.access pkgspec true :: Event.realpath pkgspec (some abspath) :: r.trace,
            result := r.result }

/-- `rpmostree_builtin_pkg_add` (lines 115-179). -/
def rpmostree_builtin_pkg_add (C : Collab) (argv : List String) : Result :=
  match C.option_context_parse argv with
  | .error e =>
    { exit_status := EXIT_FAILURE, error := some e,
      trace := [Event.option_context_parse argv false] }
  | .ok (o, argv') =>
    let t0 := [Event.option_context_parse argv true]
    if argv'.length < 2 then
      { exit_status := EXIT_FAILURE, error := some (C.usage_error usage_message),
        trace := t0 ++ [Event.usage_error usage_message] }
    else
      let r := pkg_add_loop C 1 (argv'.drop 1) []
      match r.result with
      | .error e =>
        { exit_status := EXIT_FAILURE, error := some e, trace := t0 ++ r.trace }
      | .ok packages_to_add =>
        let c := pkg_change C o (some packages_to_add) none
        { exit_status := c.exit_status, error := c.error, trace := t0 ++ r.trace ++ c.trace }

/-! ## `rpmostree_builtin_pkg_remove` (lines 181-214) -/

/-- `rpmostree_builtin_pkg_remove` (lines 181-214). -/
def rpmostree_builtin_pkg_remove (C : Collab) (argv : List String) : Result :=
  match C.option_context_parse argv with
  | .error e =>
    { exit_status := EXIT_FAILURE, error := some e,
      trace := [Event.option_context_parse argv false] }
  | .ok (o, argv') =>
    let t0 := [Event.option_context_parse argv true]
    if argv'.length < 2 then
      { exit_status := EXIT_FAILURE, error := some (C.usage_error usage_message),
        trace := t0 ++ [Event.usage_error usage_message] }
    else
      let packages_to_remove := argv'.drop 1
      let c := pkg_change C o none (some packages_to_remove)
      { exit_status := c.exit_status, error := c.error, trace := t0 ++ c.trace }

/-! ## Sample collaborators -/

/-- A parser that finds no option: the statics keep their zero values and
`argv` is left as it is. -/
def parse_plain (argv : List String) : Except String (Opts × List String) :=
  .ok ({ opt_osname := none, opt_reboot := false, opt_dry_run := false }, argv)

/-- A world in which every call succeeds: files are readable, `realpath`
puts the token under `/cwd/`, the daemon accepts and completes the
transaction and the diff prints. -/
def happy : Collab where
  option_context_parse := parse_plain
  usage_error := fun m => "usage error: " ++ m
  access := fun _ _ => .ok ()
  realpath := fun _ p => .ok ("/cwd/" ++ p)
  load_os_proxy := fun _ => .ok ()
  os_call_pkg_change_sync := fun _ _ _ _ => .ok "/org/projectatomic/rpmostree1/txn"
  transaction_get_response_sync := fun _ => .ok ()
  sysroot_get_path := "/"
  print_treepkg_diff_from_sysroot_path := fun _ => .ok ()

/-- A world like `happy` except that the diff printer fails. -/
def diff_fails : Collab :=
  { happy with print_treepkg_diff_from_sysroot_path := fun _ => .error "opening sysroot" }

/-- A world like `happy` except that no file is readable. -/
def unreadable : Collab :=
  { happy with access := fun _ _ => .error "No such file or directory" }

/-- A world like `happy` except that `realpath` fails. -/
def realpath_fails : Collab :=
  { happy with realpath := fun _ _ => .error "No such file or directory" }

/-! ## Vocabulary of the specification -/

/-- A relative archive token: ends with `.rpm` and does not begin with `/`. -/
def is_relative_archive (t : String) : Bool :=
  g_str_has_suffix t ".rpm" && !( g_str_has_prefix t "/")

/-- The message `msg` contains the token `t`. -/
def mentions (msg t : String) : Prop := t.data <:+: msg.data

instance (msg t : String) : Decidable (mentions msg t) := by
  unfold mentions; infer_instance

/-- A call to one of the three daemon entry points. -/
def Event.is_remote : Event → Bool
  | .load_os_proxy _ _ => true
  | .os_call_pkg_change_sync _ _ _ _ _ => true
  | .transaction_get_response_sync _ _ => true
  | _ => false

/-- A readability check or a canonicalization. -/
def Event.is_path_op : Event → Bool
  | .access _ _ => true
  | .realpath _ _ => true
  | _ => false

/-- The wait for completion returned success. -/
def Succeeded (tr : List Event) : Prop :=
  ∃ a, Event.transaction_get_response_sync a true ∈ tr

/-- The dry-run notice was printed. -/
def DryRunShortCircuit (tr : List Event) : Prop :=
  Event.g_print dry_run_notice ∈ tr

/-- The diff collaborator was called. -/
def DiffInvoked (tr : List Event) : Prop :=
  ∃ p ok, Event.print_treepkg_diff_from_sysroot_path p ok ∈ tr

/-- The diff collaborator was called and failed. -/
def DiffFailed (tr : List Event) : Prop :=
  ∃ p, Event.print_treepkg_diff_from_sysroot_path p false ∈ tr

/-- A readability check or a canonicalization failed. -/
def ResolutionError (tr : List Event) : Prop :=
  (∃ t, Event.access t false ∈ tr) ∨ (∃ t, Event.realpath t none ∈ tr)

/-- Loading the OS proxy or submitting the request failed. -/
def SubmissionError (tr : List Event) : Prop :=
  (∃ n, Event.load_os_proxy n false ∈ tr) ∨
    (∃ r d a rm, Event.os_call_pkg_change_sync r d a rm false ∈ tr)

/-- The wait for completion returned failure. -/
def FailedOutcome (tr : List Event) : Prop :=
  ∃ a, Event.transaction_get_response_sync a false ∈ tr

/-- The texts printed by the code itself, oldest first. -/
def printed : List Event → List String
  | [] => []
  | Event.g_print s :: tr => s :: printed tr
  | _ :: tr => printed tr

/-- The exit-status rule of the builtins as the code has it. -/
def ExitStatusRule (r : Result) : Prop :=
  (r.exit_status = EXIT_SUCCESS ↔
    (Succeeded r.trace ∧ ¬ DiffFailed r.trace) ∨ DryRunShortCircuit r.trace) ∧
  (ResolutionError r.trace ∨ SubmissionError r.trace ∨ FailedOutcome r.trace ∨
    DiffFailed r.trace → r.exit_status ≠ EXIT_SUCCESS)

/-! ## The token loop -/

theorem pkg_add_loop_nil (C : Collab) (i : Nat) (acc : List String) :
    pkg_add_loop C i [] acc = { trace := [], result := .ok acc } := by
  simp [pkg_add_loop]

theorem pkg_add_loop_fast (C : Collab) (i : Nat) (t : String) (ts acc : List String)
    (h : is_relative_archive t = false) :
    pkg_add_loop C i (t :: ts) acc = pkg_add_loop C (i + 1) ts (acc ++ [t]) := by
  have h2 : (!(g_str_has_suffix t ".rpm") || ( g_str_has_prefix t "/")) = true := by
    unfold is_relative_archive at h
    cases hs : g_str_has_suffix t ".rpm" <;> cases hp : g_str_has_prefix t "/" <;> simp_all
  rw [pkg_add_loop, if_pos h2]

theorem pkg_add_loop_slow (C : Collab) (i : Nat) (t : String) (ts acc : List String)
    (h : is_relative_archive t = true) :
    pkg_add_loop C i (t :: ts) acc =
      match C.access i t with
      | .error strerror =>
        { trace := [Event.access t false],
          result := .error ("can't read package '" ++ t ++ "': " ++ strerror) }
      | .ok _ =>
        match C.realpath i t with
        | .error strerror =>
          { trace := [Event.access t true, Event.realpath t none],
            result := .error ("realpath" ++ strerror) }
        | .ok abspath =>
          { trace := Event.access t true :: Event.realpath t (some abspath) ::
              (pkg_add_loop C (i + 1) ts (acc ++ [abspath])).trace,
            result := (pkg_add_loop C (i + 1) ts (acc ++ [abspath])).result } := by
  have h2 : ¬ (!(g_str_has_suffix t ".rpm") || ( g_str_has_prefix t "/")) = true := by
    unfold is_relative_archive at h
    cases hs : g_str_has_suffix t ".rpm" <;> cases hp : g_str_has_prefix t "/" <;> simp_all
  rw [pkg_add_loop, if_neg h2]
  rfl

/-- Every call of the loop is a path operation on a relative archive token
of the list. -/
theorem pkg_add_loop_trace (C : Collab) :
    ∀ (toks : List String) (i : Nat) (acc : List String) (e : Event),
      e ∈ (pkg_add_loop C i toks acc).trace →
      ∃ t, t ∈ toks ∧ is_relative_archive t = true ∧
        ((∃ ok, e = Event.access t ok) ∨ (∃ r, e = Event.realpath t r)) := by
  intro toks
  induction toks with
  | nil => intro i acc e h; simp [pkg_add_loop_nil] at h
  | cons t ts ih =>
    intro i acc e h
    cases hrel : is_relative_archive t with
    | false =>
      rw [pkg_add_loop_fast C i t ts acc hrel] at h
      obtain ⟨u, hu, hur, hev⟩ := ih _ _ e h
      exact ⟨u, List.mem_cons_of_mem _ hu, hur, hev⟩
    | true =>
      rw [pkg_add_loop_slow C i t ts acc hrel] at h
      cases ha : C.access i t with
      | error s =>
        simp only [ha, List.mem_singleton] at h
        exact ⟨t, List.mem_cons_self _ _, hrel, Or.inl ⟨false, h⟩⟩
      | ok u =>
        cases hr : C.realpath i t with
        | error s =>
          simp only [ha, hr, List.mem_cons, List.mem_singleton, List.not_mem_nil, or_false] at h
          rcases h with h | h
          · exact ⟨t, List.mem_cons_self _ _, hrel, Or.inl ⟨true, h⟩⟩
          · exact ⟨t, List.mem_cons_self _ _, hrel, Or.inr ⟨none, h⟩⟩
        | ok p =>
          simp only [ha, hr, List.mem_cons] at h
          rcases h with h | h | h
          · exact ⟨t, List.mem_cons_self _ _, hrel, Or.inl ⟨true, h⟩⟩
          · exact ⟨t, List.mem_cons_self _ _, hrel, Or.inr ⟨some p, h⟩⟩
          · obtain ⟨u, hu, hur, hev⟩ := ih _ _ e h
            exact ⟨u, List.mem_cons_of_mem _ hu, hur, hev⟩

/-- When the loop fills the array, the array is the old content followed by
one entry per token, in order: the token itself on the fast path, and for a
relative archive token the answer of `realpath`, asked after `access`
succeeded, both in the iteration of that token. -/
theorem pkg_add_loop_ok (C : Collab) :
    ∀ (toks : List String) (i : Nat) (acc adds : List String),
      (pkg_add_loop C i toks acc).result = .ok adds →
      ∃ res, adds = acc ++ res ∧ res.length = toks.length ∧
        ∀ j t, toks[j]? = some t →
          (is_relative_archive t = false → res[j]? = some t) ∧
          (is_relative_archive t = true →
            C.access (i + j) t = .ok () ∧
            (∃ p, C.realpath (i + j) t = .ok p ∧ res[j]? = some p) ∧
            Event.access t true ∈ (pkg_add_loop C i toks acc).trace) := by
  intro toks
  induction toks with
  | nil =>
    intro i acc adds h
    simp only [pkg_add_loop_nil, Except.ok.injEq] at h
    exact ⟨[], by simp [h], rfl, by simp⟩
  | cons t ts ih =>
    intro i acc adds h
    cases hrel : is_relative_archive t with
    | false =>
      rw [pkg_add_loop_fast C i t ts acc hrel] at h ⊢
      obtain ⟨res, hadds, hlen, hres⟩ := ih (i + 1) (acc ++ [t]) adds h
      refine ⟨t :: res, by simp [hadds], by simp [hlen], ?_⟩
      intro j u hu
      cases j with
      | zero =>
        simp only [List.getElem?_cons_zero, Option.some.injEq] at hu
        subst hu
        simp [hrel]
      | succ k =>
        simp only [List.getElem?_cons_succ] at hu ⊢
        have := hres k u hu
        rw [show i + (k + 1) = i + 1 + k by omega]
        exact this
    | true =>
      rw [pkg_add_loop_slow C i t ts acc hrel] at h ⊢
      cases ha : C.access i t with
      | error s => simp [ha] at h
      | ok un =>
        cases hr : C.realpath i t with
        | error s => simp [ha, hr] at h
        | ok p =>
          simp only [ha, hr] at h ⊢
          obtain ⟨res, hadds, hlen, hres⟩ := ih (i + 1) (acc ++ [p]) adds h
          refine ⟨p :: res, by simp [hadds], by simp [hlen], ?_⟩
          intro j u hu
          cases j with
          | zero =>
            simp only [List.getElem?_cons_zero, Option.some.injEq] at hu
            subst hu
            simp [hrel, ha, hr]
          | succ k =>
            simp only [List.getElem?_cons_succ] at hu ⊢
            have := hres k u hu
            rw [show i + (k + 1) = i + 1 + k by omega]
            refine ⟨this.1, fun h1 => ?_⟩
            obtain ⟨h2, h3, h4⟩ := this.2 h1
            exact ⟨h2, h3, List.mem_cons_of_mem _ (List.mem_cons_of_mem _ h4)⟩

/-- The loop fails exactly when a check it made failed, and the message it
sets is built from the token for `access` and from the literal `realpath`
for `realpath`. -/
theorem pkg_add_loop_error (C : Collab) :
    ∀ (toks : List String) (i : Nat) (acc : List String),
      ((∃ msg, (pkg_add_loop C i toks acc).result = .error msg) ↔
        ResolutionError (pkg_add_loop C i toks acc).trace) ∧
      (∀ t, Event.access t false ∈ (pkg_add_loop C i toks acc).trace →
        ∃ s, (pkg_add_loop C i toks acc).result =
          .error ("can't read package '" ++ t ++ "': " ++ s)) ∧
      (∀ t, Event.realpath t none ∈ (pkg_add_loop C i toks acc).trace →
        ∃ s, (pkg_add_loop C i toks acc).result = .error ("realpath" ++ s)) := by
  intro toks
  induction toks with
  | nil => intro i acc; simp [pkg_add_loop_nil, ResolutionError]
  | cons t ts ih =>
    intro i acc
    cases hrel : is_relative_archive t with
    | false =>
      rw [pkg_add_loop_fast C i t ts acc hrel]
      exact ih _ _
    | true =>
      rw [pkg_add_loop_slow C i t ts acc hrel]
      cases ha : C.access i t with
      | error s => simp [ResolutionError]
      | ok un =>
        cases hr : C.realpath i t with
        | error s => simp [ResolutionError]
        | ok p =>
          obtain ⟨h1, h2, h3⟩ := ih (i + 1) (acc ++ [p])
          simp only [ResolutionError] at h1 ⊢
          simp only [List.mem_cons, Event.access.injEq, Bool.true_eq_false, and_false,
            false_or, Event.realpath.injEq, reduceCtorEq]
          exact ⟨h1, h2, h3⟩

/-! ## `pkg_change` -/

/-- Exit status of `pkg_change`: success exactly when the wait for completion
succeeded and the diff printer, if it ran, did not fail. -/
theorem pkg_change_exit (C : Collab) (o : Opts) (a rm : Option (List String)) :
    ((pkg_change C o a rm).exit_status = EXIT_SUCCESS ↔
      Succeeded (pkg_change C o a rm).trace ∧ ¬ DiffFailed (pkg_change C o a rm).trace) ∧
    ((pkg_change C o a rm).exit_status = EXIT_SUCCESS ∨
      (pkg_change C o a rm).exit_status = EXIT_FAILURE) ∧
    (DryRunShortCircuit (pkg_change C o a rm).trace →
      Succeeded (pkg_change C o a rm).trace ∧ ¬ DiffFailed (pkg_change C o a rm).trace) ∧
    (SubmissionError (pkg_change C o a rm).trace ∨ FailedOutcome (pkg_change C o a rm).trace →
      ¬ Succeeded (pkg_change C o a rm).trace) ∧
    ¬ ResolutionError (pkg_change C o a rm).trace ∧
    ((pkg_change C o a rm).exit_status = EXIT_FAILURE → (pkg_change C o a rm).error.isSome) := by
  unfold pkg_change pkg_change_out
  dsimp only
  repeat' split
  all_goals simp [Succeeded, DiffFailed, DryRunShortCircuit, SubmissionError, FailedOutcome,
    ResolutionError, EXIT_SUCCESS, EXIT_FAILURE, dry_run_notice, reboot_instruction]

/-- What `pkg_change` sends: one submission at most, carrying the option
values and the two lists it was given (`NULL` read as the empty list); it is
sent whenever the OS proxy loads; and `pkg_change` makes no path operation. -/
theorem pkg_change_request (C : Collab) (o : Opts) (a rm : Option (List String)) :
    (∀ r d A R ok, Event.os_call_pkg_change_sync r d A R ok ∈ (pkg_change C o a rm).trace →
      r = o.opt_reboot ∧ d = o.opt_dry_run ∧ A = a.getD [] ∧ R = rm.getD []) ∧
    (C.load_os_proxy o.opt_osname = .ok () →
      ∃ ok, Event.os_call_pkg_change_sync o.opt_reboot o.opt_dry_run (a.getD []) (rm.getD []) ok
        ∈ (pkg_change C o a rm).trace) ∧
    (∀ e ∈ (pkg_change C o a rm).trace, e.is_path_op = false) := by
  unfold pkg_change pkg_change_out
  dsimp only
  repeat' split
  all_goals simp_all [get_args_variant, Event.is_path_op]

/-- Every path through `pkg_change` ends at the `out:` label: the last call is
`rpmostree_cleanup_peer`. -/
theorem pkg_change_cleanup (C : Collab) (o : Opts) (a rm : Option (List String)) :
    (pkg_change C o a rm).trace.getLast? = some Event.cleanup_peer := by
  unfold pkg_change pkg_change_out
  dsimp only
  repeat' split
  all_goals simp

/-! ## Traces made of path operations only -/

theorem pkg_add_loop_path_ops (C : Collab) (toks : List String) (i : Nat) (acc : List String) :
    ∀ e ∈ (pkg_add_loop C i toks acc).trace, e.is_path_op = true := by
  intro e he
  obtain ⟨t, -, -, h | h⟩ := pkg_add_loop_trace C toks i acc e he
  · obtain ⟨ok, rfl⟩ := h; rfl
  · obtain ⟨r, rfl⟩ := h; rfl

theorem path_ops_quiet (lt : List Event) (h : ∀ e ∈ lt, e.is_path_op = true) :
    ¬ Succeeded lt ∧ ¬ DiffFailed lt ∧ ¬ DryRunShortCircuit lt ∧ ¬ SubmissionError lt ∧
      ¬ FailedOutcome lt ∧ ¬ DiffInvoked lt ∧ (∀ e ∈ lt, e.is_remote = false) ∧
      Event.cleanup_peer ∉ lt := by
  refine ⟨?_, ?_, ?_, ?_, ?_, ?_, ?_, ?_⟩
  · rintro ⟨a, ha⟩; exact absurd (h _ ha) (by simp [Event.is_path_op])
  · rintro ⟨a, ha⟩; exact absurd (h _ ha) (by simp [Event.is_path_op])
  · intro ha; exact absurd (h _ ha) (by simp [Event.is_path_op])
  · rintro (⟨a, ha⟩ | ⟨r, d, a, rm, ha⟩) <;> exact absurd (h _ ha) (by simp [Event.is_path_op])
  · rintro ⟨a, ha⟩; exact absurd (h _ ha) (by simp [Event.is_path_op])
  · rintro ⟨p, ok, ha⟩; exact absurd (h _ ha) (by simp [Event.is_path_op])
  · intro e he
    have := h e he
    cases e <;> simp_all [Event.is_path_op, Event.is_remote]
  · intro ha; exact absurd (h _ ha) (by simp [Event.is_path_op])

theorem Succeeded_append (x y : List Event) :
    Succeeded (x ++ y) ↔ Succeeded x ∨ Succeeded y := by
  simp [Succeeded, exists_or]

theorem DiffFailed_append (x y : List Event) :
    DiffFailed (x ++ y) ↔ DiffFailed x ∨ DiffFailed y := by
  simp [DiffFailed, exists_or]

theorem DryRunShortCircuit_append (x y : List Event) :
    DryRunShortCircuit (x ++ y) ↔ DryRunShortCircuit x ∨ DryRunShortCircuit y := by
  simp [DryRunShortCircuit]

theorem SubmissionError_append (x y : List Event) :
    SubmissionError (x ++ y) ↔ SubmissionError x ∨ SubmissionError y := by
  simp only [SubmissionError, List.mem_append, exists_or]
  exact or_or_or_comm

theorem FailedOutcome_append (x y : List Event) :
    FailedOutcome (x ++ y) ↔ FailedOutcome x ∨ FailedOutcome y := by
  simp [FailedOutcome, exists_or]

theorem ResolutionError_append (x y : List Event) :
    ResolutionError (x ++ y) ↔ ResolutionError x ∨ ResolutionError y := by
  simp only [ResolutionError, List.mem_append, exists_or]
  exact or_or_or_comm

/-! ## The two builtins once the options are parsed -/

theorem pkg_add_of_parse (C : Collab) (argv : List String) (o : Opts) (prog : String)
    (toks : List String) (hparse : C.option_context_parse argv = .ok (o, prog :: toks))
    (hne : toks ≠ []) :
    rpmostree_builtin_pkg_add C argv =
      match (pkg_add_loop C 1 toks []).result with
      | .error e =>
        { exit_status := EXIT_FAILURE, error := some e,
          trace := [Event.option_context_parse argv true] ++ (pkg_add_loop C 1 toks []).trace }
      | .ok adds =>
        { exit_status := (pkg_change C o (some adds) none).exit_status,
          error := (pkg_change C o (some adds) none).error,
          trace := [Event.option_context_parse argv true] ++ (pkg_add_loop C 1 toks []).trace ++
            (pkg_change C o (some adds) none).trace } := by
  have hlen : ¬ (prog :: toks).length < 2 := by
    cases toks with
    | nil => exact absurd rfl hne
    | cons t ts => simp
  unfold rpmostree_builtin_pkg_add
  simp only [hparse, hlen, if_false, List.drop_succ_cons, List.drop_zero]

theorem pkg_remove_of_parse (C : Collab) (argv : List String) (o : Opts) (prog : String)
    (toks : List String) (hparse : C.option_context_parse argv = .ok (o, prog :: toks))
    (hne : toks ≠ []) :
    rpmostree_builtin_pkg_remove C argv =
      { exit_status := (pkg_change C o none (some toks)).exit_status,
        error := (pkg_change C o none (some toks)).error,
        trace := [Event.option_context_parse argv true] ++
          (pkg_change C o none (some toks)).trace } := by
  have hlen : ¬ (prog :: toks).length < 2 := by
    cases toks with
    | nil => exact absurd rfl hne
    | cons t ts => simp
  unfold rpmostree_builtin_pkg_remove
  simp only [hparse, hlen, if_false, List.drop_succ_cons, List.drop_zero]

/-- When every relative archive token passes both checks in its iteration,
the loop runs to the end and fills the array. -/
theorem pkg_add_loop_total (C : Collab) :
    ∀ (toks : List String) (i : Nat) (acc : List String),
      (∀ j t, toks[j]? = some t → is_relative_archive t = true →
        C.access (i + j) t = .ok () ∧ ∃ p, C.realpath (i + j) t = .ok p) →
      ∃ adds, (pkg_add_loop C i toks acc).result = .ok adds := by
  intro toks
  induction toks with
  | nil => intro i acc _; exact ⟨acc, by simp [pkg_add_loop_nil]⟩
  | cons t ts ih =>
    intro i acc h
    have htail : ∀ j u, ts[j]? = some u → is_relative_archive u = true →
        C.access (i + 1 + j) u = .ok () ∧ ∃ p, C.realpath (i + 1 + j) u = .ok p := by
      intro j u hu hrel
      have := h (j + 1) u (by simpa using hu) hrel
      rwa [show i + (j + 1) = i + 1 + j by omega] at this
    cases hrel : is_relative_archive t with
    | false =>
      rw [pkg_add_loop_fast C i t ts acc hrel]
      exact ih _ _ htail
    | true =>
      obtain ⟨ha, p, hp⟩ := h 0 t (by simp) hrel
      rw [pkg_add_loop_slow C i t ts acc hrel]
      simp only [Nat.add_zero] at ha hp
      simp only [ha, hp]
      exact ih _ _ htail

/-! ## Exit status -/

theorem exit_rule_fail (pre : List Event) (e : Option String)
    (hs : ¬ Succeeded pre) (hd : ¬ DryRunShortCircuit pre) :
    ExitStatusRule { exit_status := EXIT_FAILURE, error := e, trace := pre } := by
  simp [ExitStatusRule, hs, hd, EXIT_SUCCESS, EXIT_FAILURE]

theorem exit_rule_change (pre : List Event) (C : Collab) (o : Opts)
    (a rm : Option (List String))
    (hs : ¬ Succeeded pre) (hdf : ¬ DiffFailed pre) (hd : ¬ DryRunShortCircuit pre)
    (hse : ¬ SubmissionError pre) (hf : ¬ FailedOutcome pre) (hr : ¬ ResolutionError pre) :
    ExitStatusRule { exit_status := (pkg_change C o a rm).exit_status,
                     error := (pkg_change C o a rm).error,
                     trace := pre ++ (pkg_change C o a rm).trace } := by
  obtain ⟨h1, h2, h3, h4, h5, -⟩ := pkg_change_exit C o a rm
  simp only [ExitStatusRule, Succeeded_append, DiffFailed_append, DryRunShortCircuit_append,
    SubmissionError_append, FailedOutcome_append, ResolutionError_append, hs, hdf, hd, hse, hf,
    hr, false_or]
  refine ⟨⟨fun h => Or.inl (h1.mp h), fun h => h1.mpr (h.elim id h3)⟩, ?_⟩
  rintro (h | h | h | h)
  · exact absurd h h5
  · exact fun hc => h4 (Or.inl h) (h1.mp hc).1
  · exact fun hc => h4 (Or.inr h) (h1.mp hc).1
  · exact fun hc => (h1.mp hc).2 h

/-- C1 (as the code has it): for every collaborator behaviour and every
argument list, `pkg-add` and `pkg-remove` return `EXIT_SUCCESS` exactly when
the wait for completion succeeded and the diff printer, if it was run, did
not fail (every dry-run short-circuit is such a run); the status is non-zero
on any resolution error, submission error, failed outcome or diff failure. -/
theorem exit_status_rule (C : Collab) (argv : List String) :
    ExitStatusRule (rpmostree_builtin_pkg_add C argv) ∧
    ExitStatusRule (rpmostree_builtin_pkg_remove C argv) := by
  have hparse_quiet : ∀ ok, ¬ Succeeded [Event.option_context_parse argv ok] ∧
      ¬ DiffFailed [Event.option_context_parse argv ok] ∧
      ¬ DryRunShortCircuit [Event.option_context_parse argv ok] ∧
      ¬ SubmissionError [Event.option_context_parse argv ok] ∧
      ¬ FailedOutcome [Event.option_context_parse argv ok] ∧
      ¬ ResolutionError [Event.option_context_parse argv ok] := by
    intro ok
    simp [Succeeded, DiffFailed, DryRunShortCircuit, SubmissionError, FailedOutcome,
      ResolutionError]
  constructor
  · unfold rpmostree_builtin_pkg_add
    cases hp : C.option_context_parse argv with
    | error e => exact exit_rule_fail _ _ (hparse_quiet false).1 (hparse_quiet false).2.2.1
    | ok v =>
      obtain ⟨o, argv'⟩ := v
      dsimp only
      split_ifs with hlen
      · exact exit_rule_fail _ _ (by simp [Succeeded]) (by simp [DryRunShortCircuit])
      · have hq := path_ops_quiet _ (pkg_add_loop_path_ops C (argv'.drop 1) 1 [])
        obtain ⟨q1, q2, q3, q4, q5, q6⟩ := hparse_quiet true
        cases hres : (pkg_add_loop C 1 (argv'.drop 1) []).result with
        | error msg =>
          have hre : ResolutionError (pkg_add_loop C 1 (argv'.drop 1) []).trace :=
            (pkg_add_loop_error C _ 1 []).1.mp ⟨msg, hres⟩
          simp only [ExitStatusRule, Succeeded_append, DiffFailed_append,
            DryRunShortCircuit_append, SubmissionError_append, FailedOutcome_append,
            ResolutionError_append, q1, q3, hq.1, hq.2.2.1, false_or]
          simp [EXIT_SUCCESS, EXIT_FAILURE]
        | ok adds =>
          have hre : ¬ ResolutionError (pkg_add_loop C 1 (argv'.drop 1) []).trace := by
            intro h
            obtain ⟨msg, hmsg⟩ := (pkg_add_loop_error C _ 1 []).1.mpr h
            rw [hres] at hmsg
            cases hmsg
          dsimp only
          refine exit_rule_change _ C o _ _ ?_ ?_ ?_ ?_ ?_ ?_
          · exact fun h => ((Succeeded_append _ _).mp h).elim q1 hq.1
          · exact fun h => ((DiffFailed_append _ _).mp h).elim q2 hq.2.1
          · exact fun h => ((DryRunShortCircuit_append _ _).mp h).elim q3 hq.2.2.1
          · exact fun h => ((SubmissionError_append _ _).mp h).elim q4 hq.2.2.2.1
          · exact fun h => ((FailedOutcome_append _ _).mp h).elim q5 hq.2.2.2.2.1
          · exact fun h => ((ResolutionError_append _ _).mp h).elim q6 hre
  · unfold rpmostree_builtin_pkg_remove
    cases hp : C.option_context_parse argv with
    | error e => exact exit_rule_fail _ _ (hparse_quiet false).1 (hparse_quiet false).2.2.1
    | ok v =>
      obtain ⟨o, argv'⟩ := v
      dsimp only
      split_ifs with hlen
      · exact exit_rule_fail _ _ (by simp [Succeeded]) (by simp [DryRunShortCircuit])
      · obtain ⟨q1, q2, q3, q4, q5, q6⟩ := hparse_quiet true
        exact exit_rule_change _ C o _ _ q1 q2 q3 q4 q5 q6

/-- C1 (as stated) fails: with a diff printer that fails, `pkg-add
vim-enhanced` reaches Succeeded and still returns a non-zero status. -/
theorem exit_status_claim_refuted :
    ¬ ((rpmostree_builtin_pkg_add diff_fails ["pkg-add", "vim-enhanced"]).exit_status
          = EXIT_SUCCESS ↔
        Succeeded (rpmostree_builtin_pkg_add diff_fails ["pkg-add", "vim-enhanced"]).trace ∨
        DryRunShortCircuit
          (rpmostree_builtin_pkg_add diff_fails ["pkg-add", "vim-enhanced"]).trace) := by
  intro h
  have hs : Succeeded (rpmostree_builtin_pkg_add diff_fails ["pkg-add", "vim-enhanced"]).trace :=
    ⟨"/org/projectatomic/rpmostree1/txn", by decide⟩
  have h0 := h.mpr (Or.inl hs)
  revert h0
  decide

/-! ## Resolution of the add-tokens -/

theorem toks_ne_nil_of_get {toks : List String} {j : Nat} {t : String}
    (hj : toks[j]? = some t) : toks ≠ [] := by
  intro h
  subst h
  simp at hj

/-- A submission seen in the trace of `pkg-add` carries the array the loop
filled and an empty remove list. -/
theorem pkg_add_submitted (C : Collab) (argv : List String) (o : Opts) (prog : String)
    (toks : List String) (hparse : C.option_context_parse argv = .ok (o, prog :: toks))
    (hne : toks ≠ []) (r d : Bool) (A R : List String) (ok : Bool)
    (hsub : Event.os_call_pkg_change_sync r d A R ok ∈ (rpmostree_builtin_pkg_add C argv).trace) :
    (pkg_add_loop C 1 toks []).result = .ok A ∧ R = [] := by
  rw [pkg_add_of_parse C argv o prog toks hparse hne] at hsub
  have hq := path_ops_quiet _ (pkg_add_loop_path_ops C toks 1 [])
  cases hres : (pkg_add_loop C 1 toks []).result with
  | error msg =>
    simp only [hres, List.mem_append, List.mem_singleton, reduceCtorEq, false_or] at hsub
    exact absurd (hq.2.2.2.2.2.2.1 _ hsub) (by simp [Event.is_remote])
  | ok adds =>
    simp only [hres, List.mem_append, List.mem_singleton, reduceCtorEq, false_or] at hsub
    rcases hsub with hsub | hsub
    · exact absurd (hq.2.2.2.2.2.2.1 _ hsub) (by simp [Event.is_remote])
    · obtain ⟨-, -, hA, hR⟩ := (pkg_change_request C o (some adds) none).1 r d A R ok hsub
      simp only [Option.getD_some, Option.getD_none] at hA hR
      exact ⟨by rw [hA], hR⟩

/-- C2: when the token list holds, at any position, a relative archive token
whose readability check or canonicalization fails in its iteration,
`rpmostree_builtin_pkg_add` returns a non-zero status with the error set and
calls none of `rpmostree_load_os_proxy`, `rpmostree_os_call_pkg_change_sync`,
`rpmostree_transaction_get_response_sync`. -/
theorem unreadable_token_stops_before_remote (C : Collab) (argv : List String) (o : Opts)
    (prog : String) (toks : List String) (j : Nat) (t : String)
    (hparse : C.option_context_parse argv = .ok (o, prog :: toks))
    (hj : toks[j]? = some t) (hrel : is_relative_archive t = true)
    (hfail : (∃ s, C.access (1 + j) t = .error s) ∨ (∃ s, C.realpath (1 + j) t = .error s)) :
    (rpmostree_builtin_pkg_add C argv).exit_status ≠ EXIT_SUCCESS ∧
    (rpmostree_builtin_pkg_add C argv).error.isSome = true ∧
    ∀ e ∈ (rpmostree_builtin_pkg_add C argv).trace, e.is_remote = false := by
  rw [pkg_add_of_parse C argv o prog toks hparse (toks_ne_nil_of_get hj)]
  have hq := path_ops_quiet _ (pkg_add_loop_path_ops C toks 1 [])
  cases hres : (pkg_add_loop C 1 toks []).result with
  | ok adds =>
    obtain ⟨res, -, -, h⟩ := pkg_add_loop_ok C toks 1 [] adds hres
    obtain ⟨ha, ⟨p, hp, -⟩, -⟩ := (h j t hj).2 hrel
    rcases hfail with ⟨s, hs⟩ | ⟨s, hs⟩
    · rw [ha] at hs; cases hs
    · rw [hp] at hs; cases hs
  | error msg =>
    refine ⟨by simp [EXIT_SUCCESS, EXIT_FAILURE], by simp, ?_⟩
    intro e he
    simp only [List.mem_append, List.mem_singleton] at he
    rcases he with he | he
    · subst he; rfl
    · exact hq.2.2.2.2.2.2.1 e he

/-- C2 at `pkg-add vim-enhanced missing.rpm` in a world without readable
files. -/
theorem unreadable_token_stops_before_remote_witness :
    (rpmostree_builtin_pkg_add unreadable ["pkg-add", "vim-enhanced", "missing.rpm"]).exit_status
        ≠ EXIT_SUCCESS ∧
    (rpmostree_builtin_pkg_add unreadable
        ["pkg-add", "vim-enhanced", "missing.rpm"]).error.isSome = true ∧
    ∀ e ∈ (rpmostree_builtin_pkg_add unreadable
        ["pkg-add", "vim-enhanced", "missing.rpm"]).trace, e.is_remote = false :=
  unreadable_token_stops_before_remote unreadable ["pkg-add", "vim-enhanced", "missing.rpm"]
    { opt_osname := none, opt_reboot := false, opt_dry_run := false } "pkg-add"
    ["vim-enhanced", "missing.rpm"] 1 "missing.rpm" rfl rfl (by decide)
    (Or.inl ⟨"No such file or directory", rfl⟩)

/-- C3 (as the code has it): in a submitted `packagesToAdd` list, the entry
of a relative token ending with `.rpm` comes from a token whose readability
check succeeded during resolution, while the entry of an absolute token
ending with `.rpm` is the token itself and no readability check is made on
it. -/
theorem local_file_ref_checked_when_relative (C : Collab) (argv : List String) (o : Opts)
    (prog : String) (toks : List String) (j : Nat) (t : String)
    (r d : Bool) (adds rms : List String) (ok : Bool)
    (hparse : C.option_context_parse argv = .ok (o, prog :: toks))
    (hj : toks[j]? = some t) (hsuf : g_str_has_suffix t ".rpm" = true)
    (hsub : Event.os_call_pkg_change_sync r d adds rms ok
      ∈ (rpmostree_builtin_pkg_add C argv).trace) :
    (( g_str_has_prefix t "/") = false →
      C.access (1 + j) t = .ok () ∧
      Event.access t true ∈ (rpmostree_builtin_pkg_add C argv).trace) ∧
    (( g_str_has_prefix t "/") = true →
      adds[j]? = some t ∧
      ∀ b, Event.access t b ∉ (rpmostree_builtin_pkg_add C argv).trace) := by
  have hne := toks_ne_nil_of_get hj
  obtain ⟨hres, -⟩ := pkg_add_submitted C argv o prog toks hparse hne r d adds rms ok hsub
  obtain ⟨res, hadds, -, h⟩ := pkg_add_loop_ok C toks 1 [] adds hres
  simp only [List.nil_append] at hadds
  subst hadds
  rw [pkg_add_of_parse C argv o prog toks hparse hne]
  simp only [hres]
  constructor
  · intro hpre
    have hrel : is_relative_archive t = true := by simp [is_relative_archive, hsuf, hpre]
    obtain ⟨ha, -, hev⟩ := (h j t hj).2 hrel
    exact ⟨ha, by simp [hev]⟩
  · intro hpre
    have hrel : is_relative_archive t = false := by simp [is_relative_archive, hsuf, hpre]
    refine ⟨(h j t hj).1 hrel, ?_⟩
    intro b hb
    simp only [List.mem_append, List.mem_singleton, reduceCtorEq, false_or] at hb
    rcases hb with hb | hb
    · obtain ⟨u, -, hu, hev | hev⟩ := pkg_add_loop_trace C toks 1 [] _ hb
      · obtain ⟨b2, hb2⟩ := hev
        simp only [Event.access.injEq] at hb2
        rw [hb2.1, hu] at hrel
        cases hrel
      · obtain ⟨p, hp⟩ := hev
        cases hp
    · exact absurd ((pkg_change_request C o (some adds) none).2.2 _ hb)
        (by simp [Event.is_path_op])

/-- C3 (as the code has it) at `pkg-add vim-enhanced ./local-build.rpm` in
the all-succeeding world. -/
theorem local_file_ref_checked_when_relative_witness :
    (( g_str_has_prefix "./local-build.rpm" "/") = false →
      happy.access (1 + 1) "./local-build.rpm" = .ok () ∧
      Event.access "./local-build.rpm" true ∈
        (rpmostree_builtin_pkg_add happy
          ["pkg-add", "vim-enhanced", "./local-build.rpm"]).trace) ∧
    (( g_str_has_prefix "./local-build.rpm" "/") = true →
      ["vim-enhanced", "/cwd/./local-build.rpm"][1]? = some "./local-build.rpm" ∧
      ∀ b, Event.access "./local-build.rpm" b ∉
        (rpmostree_builtin_pkg_add happy
          ["pkg-add", "vim-enhanced", "./local-build.rpm"]).trace) :=
  local_file_ref_checked_when_relative happy ["pkg-add", "vim-enhanced", "./local-build.rpm"]
    { opt_osname := none, opt_reboot := false, opt_dry_run := false } "pkg-add"
    ["vim-enhanced", "./local-build.rpm"] 1 "./local-build.rpm" false false
    ["vim-enhanced", "/cwd/./local-build.rpm"] [] true rfl rfl (by decide) (by decide)

/-- C3 (as stated) fails: in a world where no file is readable, `pkg-add
/tmp/x.rpm` submits the token, which ends with `.rpm`, and completes with
status 0 without a single readability check or canonicalization. -/
theorem absolute_archive_submitted_unchecked :
    g_str_has_suffix "/tmp/x.rpm" ".rpm" = true ∧
    unreadable.access 1 "/tmp/x.rpm" = .error "No such file or directory" ∧
    Event.os_call_pkg_change_sync false false ["/tmp/x.rpm"] [] true ∈
      (rpmostree_builtin_pkg_add unreadable ["pkg-add", "/tmp/x.rpm"]).trace ∧
    (∀ e ∈ (rpmostree_builtin_pkg_add unreadable ["pkg-add", "/tmp/x.rpm"]).trace,
      e.is_path_op = false) ∧
    (rpmostree_builtin_pkg_add unreadable ["pkg-add", "/tmp/x.rpm"]).exit_status
      = EXIT_SUCCESS := by
  refine ⟨by decide, rfl, by decide, by decide, by decide⟩

/-- C4: the entry of a token that does not end with `.rpm` is, in every
submitted `packagesToAdd` list, the token itself at the token's position, and
the code makes no readability check and no canonicalization on it, whatever
the collaborators answer. -/
theorem repository_ref_verbatim (C : Collab) (argv : List String) (o : Opts)
    (prog : String) (toks : List String) (j : Nat) (t : String)
    (hparse : C.option_context_parse argv = .ok (o, prog :: toks))
    (hj : toks[j]? = some t) (hrepo : g_str_has_suffix t ".rpm" = false) :
    (∀ r d adds rms ok, Event.os_call_pkg_change_sync r d adds rms ok
        ∈ (rpmostree_builtin_pkg_add C argv).trace → adds[j]? = some t) ∧
    (∀ b, Event.access t b ∉ (rpmostree_builtin_pkg_add C argv).trace) ∧
    (∀ p, Event.realpath t p ∉ (rpmostree_builtin_pkg_add C argv).trace) := by
  have hne := toks_ne_nil_of_get hj
  have hrel : is_relative_archive t = false := by simp [is_relative_archive, hrepo]
  have hloop : ∀ e, e ∈ (pkg_add_loop C 1 toks []).trace →
      (∀ b, e ≠ Event.access t b) ∧ (∀ p, e ≠ Event.realpath t p) := by
    intro e he
    obtain ⟨u, -, hu, hev | hev⟩ := pkg_add_loop_trace C toks 1 [] e he
    · obtain ⟨b2, rfl⟩ := hev
      refine ⟨fun b hb => ?_, fun p hp => by cases hp⟩
      simp only [Event.access.injEq] at hb
      rw [hb.1, hrel] at hu
      cases hu
    · obtain ⟨p2, rfl⟩ := hev
      refine ⟨fun b hb => (by cases hb), fun p hp => ?_⟩
      simp only [Event.realpath.injEq] at hp
      rw [hp.1, hrel] at hu
      cases hu
  have hrest : ∀ (a : Option (List String)) (e : Event),
      e ∈ [Event.option_context_parse argv true] ∨ e ∈ (pkg_change C o a none).trace →
      e.is_path_op = false := by
    intro a e he
    rcases he with he | he
    · simp only [List.mem_singleton] at he
      subst he
      rfl
    · exact (pkg_change_request C o a none).2.2 e he
  refine ⟨?_, ?_, ?_⟩
  · intro r d adds rms ok hsub
    obtain ⟨hres, -⟩ := pkg_add_submitted C argv o prog toks hparse hne r d adds rms ok hsub
    obtain ⟨res, hadds, -, h⟩ := pkg_add_loop_ok C toks 1 [] adds hres
    simp only [List.nil_append] at hadds
    subst hadds
    exact (h j t hj).1 hrel
  · intro b hb
    rw [pkg_add_of_parse C argv o prog toks hparse hne] at hb
    cases hres : (pkg_add_loop C 1 toks []).result with
    | error msg =>
      simp only [hres, List.mem_append] at hb
      rcases hb with hb | hb
      · exact absurd (hrest none _ (Or.inl hb)) (by simp [Event.is_path_op])
      · exact (hloop _ hb).1 b rfl
    | ok adds =>
      simp only [hres, List.mem_append] at hb
      rcases hb with (hb | hb) | hb
      · exact absurd (hrest none _ (Or.inl hb)) (by simp [Event.is_path_op])
      · exact (hloop _ hb).1 b rfl
      · exact absurd (hrest _ _ (Or.inr hb)) (by simp [Event.is_path_op])
  · intro p hb
    rw [pkg_add_of_parse C argv o prog toks hparse hne] at hb
    cases hres : (pkg_add_loop C 1 toks []).result with
    | error msg =>
      simp only [hres, List.mem_append] at hb
      rcases hb with hb | hb
      · exact absurd (hrest none _ (Or.inl hb)) (by simp [Event.is_path_op])
      · exact (hloop _ hb).2 p rfl
    | ok adds =>
      simp only [hres, List.mem_append] at hb
      rcases hb with (hb | hb) | hb
      · exact absurd (hrest none _ (Or.inl hb)) (by simp [Event.is_path_op])
      · exact (hloop _ hb).2 p rfl
      · exact absurd (hrest _ _ (Or.inr hb)) (by simp [Event.is_path_op])

/-- C4 at `pkg-add vim-enhanced htop`, token `vim-enhanced`, in a world where
no file is readable. -/
theorem repository_ref_verbatim_witness :
    (∀ r d adds rms ok, Event.os_call_pkg_change_sync r d adds rms ok
        ∈ (rpmostree_builtin_pkg_add unreadable ["pkg-add", "vim-enhanced", "htop"]).trace →
        adds[0]? = some "vim-enhanced") ∧
    (∀ b, Event.access "vim-enhanced" b ∉
      (rpmostree_builtin_pkg_add unreadable ["pkg-add", "vim-enhanced", "htop"]).trace) ∧
    (∀ p, Event.realpath "vim-enhanced" p ∉
      (rpmostree_builtin_pkg_add unreadable ["pkg-add", "vim-enhanced", "htop"]).trace) :=
  repository_ref_verbatim unreadable ["pkg-add", "vim-enhanced", "htop"]
    { opt_osname := none, opt_reboot := false, opt_dry_run := false } "pkg-add"
    ["vim-enhanced", "htop"] 0 "vim-enhanced" rfl rfl (by decide)

/-- C5: for n >= 1 add-tokens on which resolution succeeds (every relative
archive token passes `access` and `realpath` in its iteration), the loop fills
an array that `rpmostree_builtin_pkg_add` hands to `pkg_change` (and that every
submission carries, with an empty remove list); the array has exactly n
entries, and its i-th entry is the resolved form of the i-th token: the token
itself on the fast path, the answer of `realpath` for a relative archive
token. -/
theorem resolver_keeps_order (C : Collab) (argv : List String) (o : Opts)
    (prog : String) (toks : List String)
    (hparse : C.option_context_parse argv = .ok (o, prog :: toks))
    (hne : 1 ≤ toks.length)
    (hres : ∀ j t, toks[j]? = some t → is_relative_archive t = true →
      C.access (1 + j) t = .ok () ∧ ∃ p, C.realpath (1 + j) t = .ok p) :
    ∃ adds,
      (pkg_add_loop C 1 toks []).result = .ok adds ∧
      (rpmostree_builtin_pkg_add C argv).exit_status
        = (pkg_change C o (some adds) none).exit_status ∧
      (rpmostree_builtin_pkg_add C argv).trace
        = [Event.option_context_parse argv true] ++ (pkg_add_loop C 1 toks []).trace ++
            (pkg_change C o (some adds) none).trace ∧
      (∀ r d A R ok, Event.os_call_pkg_change_sync r d A R ok
          ∈ (rpmostree_builtin_pkg_add C argv).trace → A = adds ∧ R = []) ∧
      adds.length = toks.length ∧
      ∀ j t, toks[j]? = some t →
        (is_relative_archive t = false → adds[j]? = some t) ∧
        (is_relative_archive t = true →
          ∃ p, C.realpath (1 + j) t = .ok p ∧ adds[j]? = some p) := by
  have hne2 : toks ≠ [] := by
    intro h
    subst h
    simp at hne
  obtain ⟨adds, hadds⟩ := pkg_add_loop_total C toks 1 [] hres
  obtain ⟨res, hres2, hlen, h⟩ := pkg_add_loop_ok C toks 1 [] adds hadds
  simp only [List.nil_append] at hres2
  subst hres2
  refine ⟨adds, hadds, ?_, ?_, ?_, hlen, ?_⟩
  · rw [pkg_add_of_parse C argv o prog toks hparse hne2]
    simp only [hadds]
  · rw [pkg_add_of_parse C argv o prog toks hparse hne2]
    simp only [hadds]
  · intro r d A R ok hsub
    obtain ⟨hA, hR⟩ := pkg_add_submitted C argv o prog toks hparse hne2 r d A R ok hsub
    rw [hadds] at hA
    exact ⟨(Except.ok.inj hA).symm, hR⟩
  · intro j t hj
    refine ⟨(h j t hj).1, fun hrel => ?_⟩
    exact ((h j t hj).2 hrel).2.1

/-- C5 at `pkg-add vim-enhanced ./local-build.rpm /abs/x.rpm` in the
all-succeeding world. -/
theorem resolver_keeps_order_witness :
    ∃ adds,
      (pkg_add_loop happy 1 ["vim-enhanced", "./local-build.rpm", "/abs/x.rpm"] []).result
        = .ok adds ∧
      (rpmostree_builtin_pkg_add happy
          ["pkg-add", "vim-enhanced", "./local-build.rpm", "/abs/x.rpm"]).exit_status
        = (pkg_change happy { opt_osname := none, opt_reboot := false, opt_dry_run := false }
            (some adds) none).exit_status ∧
      (rpmostree_builtin_pkg_add happy
          ["pkg-add", "vim-enhanced", "./local-build.rpm", "/abs/x.rpm"]).trace
        = [Event.option_context_parse
            ["pkg-add", "vim-enhanced", "./local-build.rpm", "/abs/x.rpm"] true] ++
          (pkg_add_loop happy 1 ["vim-enhanced", "./local-build.rpm", "/abs/x.rpm"] []).trace ++
          (pkg_change happy { opt_osname := none, opt_reboot := false, opt_dry_run := false }
            (some adds) none).trace ∧
      (∀ r d A R ok, Event.os_call_pkg_change_sync r d A R ok
          ∈ (rpmostree_builtin_pkg_add happy
              ["pkg-add", "vim-enhanced", "./local-build.rpm", "/abs/x.rpm"]).trace →
          A = adds ∧ R = []) ∧
      adds.length = ["vim-enhanced", "./local-build.rpm", "/abs/x.rpm"].length ∧
      ∀ j t, ["vim-enhanced", "./local-build.rpm", "/abs/x.rpm"][j]? = some t →
        (is_relative_archive t = false → adds[j]? = some t) ∧
        (is_relative_archive t = true →
          ∃ p, happy.realpath (1 + j) t = .ok p ∧ adds[j]? = some p) :=
  resolver_keeps_order happy ["pkg-add", "vim-enhanced", "./local-build.rpm", "/abs/x.rpm"]
    { opt_osname := none, opt_reboot := false, opt_dry_run := false } "pkg-add"
    ["vim-enhanced", "./local-build.rpm", "/abs/x.rpm"] rfl (by decide)
    (fun j t _ _ => ⟨rfl, "/cwd/" ++ t, rfl⟩)

/-- C6: when the loop of `rpmostree_builtin_pkg_add` fills the array, the
entry it emits for a relative archive token is the value `realpath` returned
for that token in its iteration; that value being an absolute path (what
`realpath` returns on success), it is not the token itself. -/
theorem relative_archive_canonicalized (C : Collab) (toks : List String) (j : Nat)
    (t : String) (adds : List String)
    (hj : toks[j]? = some t) (hrel : is_relative_archive t = true)
    (habs : ∀ p, C.realpath (1 + j) t = .ok p → ( g_str_has_prefix p "/") = true)
    (hres : (pkg_add_loop C 1 toks []).result = .ok adds) :
    ∃ p, C.realpath (1 + j) t = .ok p ∧ adds[j]? = some p ∧
      ( g_str_has_prefix p "/") = true ∧ p ≠ t := by
  obtain ⟨res, hres2, -, h⟩ := pkg_add_loop_ok C toks 1 [] adds hres
  simp only [List.nil_append] at hres2
  subst hres2
  obtain ⟨-, ⟨p, hp, hadd⟩, -⟩ := (h j t hj).2 hrel
  refine ⟨p, hp, hadd, habs p hp, ?_⟩
  intro hpt
  have h1 := habs p hp
  rw [hpt] at h1
  simp [is_relative_archive, h1] at hrel

/-- C6 at the tokens `vim-enhanced ./local-build.rpm`, second token, in the
all-succeeding world. -/
theorem relative_archive_canonicalized_witness :
    ∃ p, happy.realpath (1 + 1) "./local-build.rpm" = .ok p ∧
      ["vim-enhanced", "/cwd/./local-build.rpm"][1]? = some p ∧
      ( g_str_has_prefix p "/") = true ∧ p ≠ "./local-build.rpm" :=
  relative_archive_canonicalized happy ["vim-enhanced", "./local-build.rpm"] 1
    "./local-build.rpm" ["vim-enhanced", "/cwd/./local-build.rpm"] rfl (by decide)
    (fun p hp => by
      have : p = "/cwd/./local-build.rpm" := (Except.ok.inj hp).symm
      subst this
      decide)
    rfl

/-- C7: for n >= 1 remove-tokens, every submission made by
`rpmostree_builtin_pkg_remove` carries an empty `packagesToAdd` list and the
tokens, verbatim and in order, as `packagesToRemove`; the submission is made
whenever the OS proxy loads; and no readability check or canonicalization is
made on any token, whatever its shape. -/
theorem remove_tokens_verbatim (C : Collab) (argv : List String) (o : Opts)
    (prog : String) (toks : List String)
    (hparse : C.option_context_parse argv = .ok (o, prog :: toks))
    (hne : 1 ≤ toks.length) :
    (∀ r d A R ok, Event.os_call_pkg_change_sync r d A R ok
        ∈ (rpmostree_builtin_pkg_remove C argv).trace → A = [] ∧ R = toks) ∧
    (C.load_os_proxy o.opt_osname = .ok () →
      ∃ ok, Event.os_call_pkg_change_sync o.opt_reboot o.opt_dry_run [] toks ok
        ∈ (rpmostree_builtin_pkg_remove C argv).trace) ∧
    (∀ e ∈ (rpmostree_builtin_pkg_remove C argv).trace, e.is_path_op = false) := by
  have hne2 : toks ≠ [] := by
    intro h
    subst h
    simp at hne
  rw [pkg_remove_of_parse C argv o prog toks hparse hne2]
  obtain ⟨h1, h2, h3⟩ := pkg_change_request C o none (some toks)
  simp only [Option.getD_some, Option.getD_none] at h1 h2
  refine ⟨?_, ?_, ?_⟩
  · intro r d A R ok hsub
    simp only [List.mem_append, List.mem_singleton, reduceCtorEq, false_or] at hsub
    exact (h1 r d A R ok hsub).2.2
  · intro hload
    obtain ⟨ok, hok⟩ := h2 hload
    exact ⟨ok, List.mem_append_right _ hok⟩
  · intro e he
    simp only [List.mem_append, List.mem_singleton] at he
    rcases he with he | he
    · subst he; rfl
    · exact h3 e he

/-- C7 at `pkg-remove ./local-build.rpm /abs/x.rpm htop` in a world where no
file is readable. -/
theorem remove_tokens_verbatim_witness :
    (∀ r d A R ok, Event.os_call_pkg_change_sync r d A R ok
        ∈ (rpmostree_builtin_pkg_remove unreadable
            ["pkg-remove", "./local-build.rpm", "/abs/x.rpm", "htop"]).trace →
        A = [] ∧ R = ["./local-build.rpm", "/abs/x.rpm", "htop"]) ∧
    (unreadable.load_os_proxy none = .ok () →
      ∃ ok, Event.os_call_pkg_change_sync false false []
          ["./local-build.rpm", "/abs/x.rpm", "htop"] ok
        ∈ (rpmostree_builtin_pkg_remove unreadable
            ["pkg-remove", "./local-build.rpm", "/abs/x.rpm", "htop"]).trace) ∧
    (∀ e ∈ (rpmostree_builtin_pkg_remove unreadable
        ["pkg-remove", "./local-build.rpm", "/abs/x.rpm", "htop"]).trace,
      e.is_path_op = false) :=
  remove_tokens_verbatim unreadable ["pkg-remove", "./local-build.rpm", "/abs/x.rpm", "htop"]
    { opt_osname := none, opt_reboot := false, opt_dry_run := false } "pkg-remove"
    ["./local-build.rpm", "/abs/x.rpm", "htop"] rfl (by decide)

/-! ## Reporting -/

/-- C8 (as the code has it): the user-visible action of `pkg_change`.  When
submission or the wait fails, nothing is printed and the diff printer is not
called; on success with dry-run set the output is exactly the dry-run notice
and the diff printer is not called; on success with reboot set and dry-run
unset nothing is printed and the diff printer is not called; on success with
both unset the diff printer is called, and when it succeeds the reboot
instruction is printed right after it as the only and final line, while when
it fails nothing is printed.  The diff printer is called exactly when the
transaction succeeded with reboot and dry-run both unset. -/
theorem reporter_table (C : Collab) (o : Opts) (a rm : Option (List String)) :
    (SubmissionError (pkg_change C o a rm).trace ∨ FailedOutcome (pkg_change C o a rm).trace ↔
      ¬ Succeeded (pkg_change C o a rm).trace) ∧
    (¬ Succeeded (pkg_change C o a rm).trace →
      printed (pkg_change C o a rm).trace = [] ∧ ¬ DiffInvoked (pkg_change C o a rm).trace) ∧
    (Succeeded (pkg_change C o a rm).trace → o.opt_dry_run = true →
      printed (pkg_change C o a rm).trace = [dry_run_notice] ∧
      ¬ DiffInvoked (pkg_change C o a rm).trace) ∧
    (Succeeded (pkg_change C o a rm).trace → o.opt_dry_run = false → o.opt_reboot = true →
      printed (pkg_change C o a rm).trace = [] ∧ ¬ DiffInvoked (pkg_change C o a rm).trace) ∧
    (Succeeded (pkg_change C o a rm).trace → o.opt_dry_run = false → o.opt_reboot = false →
      DiffInvoked (pkg_change C o a rm).trace ∧
      (¬ DiffFailed (pkg_change C o a rm).trace →
        printed (pkg_change C o a rm).trace = [reboot_instruction] ∧
        (printed (pkg_change C o a rm).trace).getLast? = some reboot_instruction ∧
        ∃ pre p, (pkg_change C o a rm).trace =
          pre ++ [Event.print_treepkg_diff_from_sysroot_path p true,
                  Event.g_print reboot_instruction, Event.cleanup_peer]) ∧
      (DiffFailed (pkg_change C o a rm).trace → printed (pkg_change C o a rm).trace = [])) ∧
    (DiffInvoked (pkg_change C o a rm).trace ↔
      Succeeded (pkg_change C o a rm).trace ∧ o.opt_reboot = false ∧ o.opt_dry_run = false) := by
  unfold pkg_change pkg_change_out
  dsimp only
  repeat' split
  all_goals simp_all [Succeeded, DiffFailed, DiffInvoked, SubmissionError, FailedOutcome, printed]
  exact ⟨[_, _, _, _], _, rfl⟩

/-- C8 (as stated) fails: with both options unset and a diff printer that
fails, the transaction succeeds, the diff printer is called, and the reboot
instruction is not printed at all. -/
theorem reboot_instruction_missing_when_diff_fails :
    Succeeded (pkg_change diff_fails
      { opt_osname := none, opt_reboot := false, opt_dry_run := false }
      (some ["vim-enhanced"]) none).trace ∧
    ¬ (DiffInvoked (pkg_change diff_fails
          { opt_osname := none, opt_reboot := false, opt_dry_run := false }
          (some ["vim-enhanced"]) none).trace ∧
       (printed (pkg_change diff_fails
          { opt_osname := none, opt_reboot := false, opt_dry_run := false }
          (some ["vim-enhanced"]) none).trace).getLast? = some reboot_instruction) := by
  refine ⟨⟨"/org/projectatomic/rpmostree1/txn", by decide⟩, ?_⟩
  rintro ⟨-, h⟩
  revert h
  decide

/-! ## Error messages of the Resolver -/

theorem mentions_cant_read (t s : String) :
    mentions (glnx_set_prefix_error_from_errno ("can't read package '" ++ t ++ "': ") s) t := by
  refine ⟨"can't read package '".data, ("': " ++ s).data, ?_⟩
  simp [glnx_set_prefix_error_from_errno, String.data_append]

/-- A path operation in the trace of `pkg-add` was made by the token loop,
and the error the builtin returns is then the one the loop set, if any. -/
theorem pkg_add_path_op_from_loop (C : Collab) (argv : List String) (e : Event)
    (hop : e.is_path_op = true) (he : e ∈ (rpmostree_builtin_pkg_add C argv).trace) :
    ∃ toks, e ∈ (pkg_add_loop C 1 toks []).trace ∧
      ∀ msg, (pkg_add_loop C 1 toks []).result = .error msg →
        (rpmostree_builtin_pkg_add C argv).error = some msg := by
  unfold rpmostree_builtin_pkg_add at he ⊢
  cases hp : C.option_context_parse argv with
  | error err =>
    simp only [hp, List.mem_singleton] at he
    subst he
    cases hop
  | ok v =>
    obtain ⟨o, argv'⟩ := v
    simp only [hp] at he ⊢
    split_ifs at he ⊢ with hlen
    · simp only [List.mem_append, List.mem_singleton] at he
      rcases he with he | he <;> (subst he; cases hop)
    · refine ⟨argv'.drop 1, ?_, ?_⟩
      · cases hres : (pkg_add_loop C 1 (argv'.drop 1) []).result with
        | error msg =>
          simp only [hres, List.mem_append, List.mem_singleton] at he
          rcases he with he | he
          · subst he; cases hop
          · exact he
        | ok adds =>
          simp only [hres, List.mem_append, List.mem_singleton] at he
          rcases he with (he | he) | he
          · subst he; cases hop
          · exact he
          · have := (pkg_change_request C o (some adds) none).2.2 e he
            rw [hop] at this
            cases this
      · intro msg hmsg
        simp only [hmsg]

/-- The message the loop sets is made from the system error text of the call
that failed: after a failed readability check of `t` it is the prefix
`can't read package '<t>': ` applied to the error text of that `access` call,
and after a failed canonicalization of `t` it is the prefix `realpath` applied
to the error text of that `realpath` call. -/
theorem pkg_add_loop_error_text (C : Collab) :
    ∀ (toks : List String) (i : Nat) (acc : List String),
      (∀ t, Event.access t false ∈ (pkg_add_loop C i toks acc).trace →
        ∃ k s, i ≤ k ∧ C.access k t = .error s ∧
          (pkg_add_loop C i toks acc).result = .error
            (glnx_set_prefix_error_from_errno ("can't read package '" ++ t ++ "': ") s)) ∧
      (∀ t, Event.realpath t none ∈ (pkg_add_loop C i toks acc).trace →
        ∃ k s, i ≤ k ∧ C.realpath k t = .error s ∧
          (pkg_add_loop C i toks acc).result = .error
            (glnx_set_prefix_error_from_errno "realpath" s)) := by
  intro toks
  induction toks with
  | nil => intro i acc; simp [pkg_add_loop_nil]
  | cons t ts ih =>
    intro i acc
    cases hrel : is_relative_archive t with
    | false =>
      rw [pkg_add_loop_fast C i t ts acc hrel]
      obtain ⟨h1, h2⟩ := ih (i + 1) (acc ++ [t])
      refine ⟨fun u hu => ?_, fun u hu => ?_⟩
      · obtain ⟨k, s, hk, hs, hres⟩ := h1 u hu
        exact ⟨k, s, by omega, hs, hres⟩
      · obtain ⟨k, s, hk, hs, hres⟩ := h2 u hu
        exact ⟨k, s, by omega, hs, hres⟩
    | true =>
      rw [pkg_add_loop_slow C i t ts acc hrel]
      cases ha : C.access i t with
      | error s =>
        refine ⟨fun u hu => ?_, fun u hu => ?_⟩
        · simp only [List.mem_singleton, Event.access.injEq, and_true] at hu
          subst hu
          exact ⟨i, s, le_refl i, ha, rfl⟩
        · simp at hu
      | ok un =>
        cases hr : C.realpath i t with
        | error s =>
          refine ⟨fun u hu => ?_, fun u hu => ?_⟩
          · simp at hu
          · simp only [List.mem_cons, reduceCtorEq, Event.realpath.injEq, and_true,
              List.not_mem_nil, or_false, false_or] at hu
            subst hu
            exact ⟨i, s, le_refl i, hr, rfl⟩
        | ok p =>
          obtain ⟨h1, h2⟩ := ih (i + 1) (acc ++ [p])
          refine ⟨fun u hu => ?_, fun u hu => ?_⟩
          · simp only [List.mem_cons, Event.access.injEq, Bool.true_eq_false, and_false,
              false_or, reduceCtorEq] at hu
            obtain ⟨k, s, hk, hs, hres⟩ := h1 u hu
            exact ⟨k, s, by omega, hs, hres⟩
          · simp only [List.mem_cons, Event.realpath.injEq, reduceCtorEq, and_false,
              false_or] at hu
            obtain ⟨k, s, hk, hs, hres⟩ := h2 u hu
            exact ⟨k, s, by omega, hs, hres⟩

/-- The error `pkg-add` surfaces after a failed check, for every collaborator
behaviour: after a failed readability check of `t` it is the prefix
`can't read package '<t>': ` applied to the error text `access` gave for
`t`, which contains `t`; after a failed canonicalization of `t` it is the
prefix `realpath` applied to the error text `realpath` gave for `t`, so `t`
is not among the parts the message is made from. -/
theorem resolver_error_text (C : Collab) (argv : List String) (t : String) :
    (Event.access t false ∈ (rpmostree_builtin_pkg_add C argv).trace →
      ∃ k s, C.access k t = .error s ∧
        (rpmostree_builtin_pkg_add C argv).error = some
          (glnx_set_prefix_error_from_errno ("can't read package '" ++ t ++ "': ") s) ∧
        mentions (glnx_set_prefix_error_from_errno ("can't read package '" ++ t ++ "': ") s) t) ∧
    (Event.realpath t none ∈ (rpmostree_builtin_pkg_add C argv).trace →
      ∃ k s, C.realpath k t = .error s ∧
        (rpmostree_builtin_pkg_add C argv).error = some
          (glnx_set_prefix_error_from_errno "realpath" s)) := by
  constructor
  · intro he
    obtain ⟨toks, hin, herr⟩ := pkg_add_path_op_from_loop C argv (Event.access t false) rfl he
    obtain ⟨k, s, -, hs, hres⟩ := (pkg_add_loop_error_text C toks 1 []).1 t hin
    exact ⟨k, s, hs, herr _ hres, mentions_cant_read t s⟩
  · intro he
    obtain ⟨toks, hin, herr⟩ := pkg_add_path_op_from_loop C argv (Event.realpath t none) rfl he
    obtain ⟨k, s, -, hs, hres⟩ := (pkg_add_loop_error_text C toks 1 []).2 t hin
    exact ⟨k, s, hs, herr _ hres⟩

/-- C9 evaluated at `pkg-add x.rpm` where `x.rpm` is readable and `realpath`
fails with `No such file or directory`: the canonicalization of `x.rpm` fails,
the error surfaced is the prefix `realpath` applied to that error text, and
it does not contain the token `x.rpm`.  On the same token the sibling branch
does name it: where `access` fails with the same text, the error surfaced is
the prefix `can't read package 'x.rpm': ` applied to it, which contains the
token. -/
theorem realpath_error_omits_token :
    (realpath_fails.access 1 "x.rpm" = .ok () ∧
     realpath_fails.realpath 1 "x.rpm" = .error "No such file or directory" ∧
     Event.realpath "x.rpm" none ∈
       (rpmostree_builtin_pkg_add realpath_fails ["pkg-add", "x.rpm"]).trace ∧
     (rpmostree_builtin_pkg_add realpath_fails ["pkg-add", "x.rpm"]).error
       = some (glnx_set_prefix_error_from_errno "realpath" "No such file or directory") ∧
     ¬ mentions (glnx_set_prefix_error_from_errno "realpath" "No such file or directory")
         "x.rpm") ∧
    (Event.access "x.rpm" false ∈
       (rpmostree_builtin_pkg_add unreadable ["pkg-add", "x.rpm"]).trace ∧
     (rpmostree_builtin_pkg_add unreadable ["pkg-add", "x.rpm"]).error
       = some (glnx_set_prefix_error_from_errno "can't read package 'x.rpm': "
           "No such file or directory") ∧
     mentions (glnx_set_prefix_error_from_errno "can't read package 'x.rpm': "
         "No such file or directory") "x.rpm") := by
  refine ⟨⟨rfl, rfl, by decide, by decide, by decide⟩, by decide, by decide, by decide⟩

/-! ## Connection cleanup -/

/-- C10 evaluated: after a successful option parse, the early returns of both
builtins (missing PACKAGE argument, unreadable package file, failed
canonicalization) leave without calling `rpmostree_cleanup_peer`, while a run
that reaches `pkg_change` ends with that call. -/
theorem cleanup_skipped_on_early_return :
    (Event.option_context_parse ["pkg-add"] true
        ∈ (rpmostree_builtin_pkg_add happy ["pkg-add"]).trace ∧
      Event.cleanup_peer ∉ (rpmostree_builtin_pkg_add happy ["pkg-add"]).trace) ∧
    (Event.option_context_parse ["pkg-add", "missing.rpm"] true
        ∈ (rpmostree_builtin_pkg_add unreadable ["pkg-add", "missing.rpm"]).trace ∧
      Event.cleanup_peer ∉ (rpmostree_builtin_pkg_add unreadable ["pkg-add", "missing.rpm"]).trace) ∧
    (Event.option_context_parse ["pkg-add", "x.rpm"] true
        ∈ (rpmostree_builtin_pkg_add realpath_fails ["pkg-add", "x.rpm"]).trace ∧
      Event.cleanup_peer ∉ (rpmostree_builtin_pkg_add realpath_fails ["pkg-add", "x.rpm"]).trace) ∧
    (Event.option_context_parse ["pkg-remove"] true
        ∈ (rpmostree_builtin_pkg_remove happy ["pkg-remove"]).trace ∧
      Event.cleanup_peer ∉ (rpmostree_builtin_pkg_remove happy ["pkg-remove"]).trace) ∧
    (rpmostree_builtin_pkg_add happy ["pkg-add", "vim-enhanced"]).trace.getLast?
      = some Event.cleanup_peer := by
  refine ⟨by decide, by decide, by decide, by decide, by decide⟩

end RpmOstree
